import Mathlib

/-!
# Verification of the confinator INI-config validation core

Shallow embedding of `src/confinator/validation.py` and the store/CLI
operations of `src/confinator/cli.py`.

* Python's `re.compile(pattern).match(candidate)` (prefix-anchored match) is
  modelled by `re_match` over the regex subset the repository's schemas use:
  literal characters, `.`, a postfix `*`, the classes `\d` and `\w`, a leading
  `^` and a terminal `$`.  Patterns outside the subset are modelled as
  non-matching; every theorem quantifying over patterns uses `re_match`
  uniformly on both sides, so nothing depends on behaviour outside the subset.
* `configparser.ConfigParser` state is modelled by `ConfigParser`: the
  `DEFAULT` section's entries (`defaults`), the ordered concrete sections
  (`sections`), and the `optionxform` setting (`caseSensitive`: `False` means
  the default lower-casing transform, `True` means the identity transform
  installed by `use_case_sensitive_option_names`).
* The filesystem is abstracted to values: a file is `Option` of its parsed
  contents, and `save`'s directory creation plus `write` are modelled as
  replacing the persisted snapshot.
-/

/-- Python's `str.lower` on one character, for the ASCII names handled by
`configparser.optionxform` (`configparser` documents the transform as
`str.lower`). -/
def lowerChar (c : Char) : Char :=
  if 65 ≤ c.toNat ∧ c.toNat ≤ 90 then Char.ofNat (c.toNat + 32) else c

/-- Python's `str.lower` on a whole string (ASCII model). -/
def lowerString (s : String) : String :=
  String.mk (s.data.map lowerChar)

/-- A single regex atom of the supported subset. -/
inductive RAtom
  | lit (c : Char)
  | dot
  | digit
  | word
deriving Repr, DecidableEq

/-- One piece of a compiled pattern: an atom, a starred atom, or `$`. -/
inductive RPiece
  | once (a : RAtom)
  | star (a : RAtom)
  | endAnchor
deriving Repr, DecidableEq

/-- Characters that are regex metacharacters (not plain literals) in the
modelled subset. -/
def regexMeta (c : Char) : Bool :=
  c == '\\' || c == '*' || c == '$' || c == '^' || c == '(' || c == ')' ||
  c == '[' || c == ']' || c == '+' || c == '?' || c == '|' ||
  c == '\x7b' || c == '\x7d'

/-- Compile the body of a pattern into pieces; `none` on constructs outside
the modelled subset. -/
def parseRegex : List Char → Option (List RPiece)
  | [] => some []
  | '$' :: rest => (parseRegex rest).map (fun r => RPiece.endAnchor :: r)
  | '.' :: '*' :: rest => (parseRegex rest).map (fun r => RPiece.star RAtom.dot :: r)
  | '.' :: rest => (parseRegex rest).map (fun r => RPiece.once RAtom.dot :: r)
  | '\\' :: 'd' :: '*' :: rest => (parseRegex rest).map (fun r => RPiece.star RAtom.digit :: r)
  | '\\' :: 'd' :: rest => (parseRegex rest).map (fun r => RPiece.once RAtom.digit :: r)
  | '\\' :: 'w' :: '*' :: rest => (parseRegex rest).map (fun r => RPiece.star RAtom.word :: r)
  | '\\' :: 'w' :: rest => (parseRegex rest).map (fun r => RPiece.once RAtom.word :: r)
  | c :: '*' :: rest =>
    if regexMeta c then none else (parseRegex rest).map (fun r => RPiece.star (RAtom.lit c) :: r)
  | c :: rest =>
    if regexMeta c then none else (parseRegex rest).map (fun r => RPiece.once (RAtom.lit c) :: r)

/-- Compile a whole pattern: `re.match` anchors at the start, so one leading
`^` is redundant and is stripped. -/
def compileRegex (p : String) : Option (List RPiece) :=
  match p.data with
  | '^' :: rest => parseRegex rest
  | cs => parseRegex cs

/-- Does the atom match one character (Python semantics: `.` excludes the
newline, `\d` the ASCII digits, `\w` ASCII word characters). -/
def atomMatch : RAtom → Char → Bool
  | RAtom.lit c, x => x == c
  | RAtom.dot, x => x != '\n'
  | RAtom.digit, x => x.isDigit
  | RAtom.word, x => x.isAlphanum || x == '_'

/-- Fuelled matcher: does the piece list match a prefix of the input?  The
pattern being exhausted is success (trailing input is not consumed), which is
exactly `re.match`'s prefix-anchored discipline.  Every recursive call
decreases `ps.length + xs.length`, so fuel beyond that sum never runs out. -/
def rMatchF : Nat → List RPiece → List Char → Bool
  | 0, _, _ => false
  | _ + 1, [], _ => true
  | fuel + 1, RPiece.endAnchor :: ps, [] => rMatchF fuel ps []
  | _ + 1, RPiece.endAnchor :: _, _ :: _ => false
  | _ + 1, RPiece.once _ :: _, [] => false
  | fuel + 1, RPiece.once a :: ps, x :: xs => atomMatch a x && rMatchF fuel ps xs
  | fuel + 1, RPiece.star a :: ps, xs =>
    rMatchF fuel ps xs ||
      (match xs with
       | [] => false
       | x :: xs2 => atomMatch a x && rMatchF fuel (RPiece.star a :: ps) xs2)

/-- Model of the truthiness of `re.compile(pattern).match(s)`. -/
def re_match (pattern s : String) : Bool :=
  match compileRegex pattern with
  | some ps => rMatchF (ps.length + s.data.length + 1) ps s.data
  | none => false

/-! ## The ConfigParser data model -/

/-- The ordered option/value entries of one section. -/
abbrev Entries := List (String × String)

/-- The option name transform `optionxform`: lower-casing by default, the
identity when `use_case_sensitive_option_names` installed `str`. -/
def xformName (caseSensitive : Bool) (option : String) : String :=
  if caseSensitive then option else lowerString option

/-- In-memory `configparser.ConfigParser` state: the `DEFAULT` section's
entries, the ordered concrete sections, and the `optionxform` setting. -/
structure ConfigParser where
  caseSensitive : Bool
  defaults : Entries
  sections : List (String × Entries)
deriving Repr, DecidableEq

/-- `parser.sections()`: the concrete section names, `DEFAULT` excluded. -/
def ConfigParser.sectionNames (cp : ConfigParser) : List String :=
  cp.sections.map Prod.fst

/-- `list(parser)` (`ConfigParser.__iter__`): the default section name first,
then the concrete sections. -/
def ConfigParser.iterNames (cp : ConfigParser) : List String :=
  "DEFAULT" :: cp.sectionNames

/-- `dict.update` key order: the section's own keys, then the keys that occur
only among the defaults, in their order. -/
def mergeKeys (own defaults : Entries) : List String :=
  own.map Prod.fst ++ (defaults.map Prod.fst).filter (fun k => !(own.map Prod.fst).contains k)

/-- `parser.options(section)`: the section's stored option names merged with
the `DEFAULT` entries; `NoSectionError` (the section name) if absent. -/
def ConfigParser.options (cp : ConfigParser) (sec : String) : Except String (List String) :=
  match cp.sections.lookup sec with
  | none => Except.error sec
  | some own => Except.ok (mergeKeys own cp.defaults)

/-- `list(parser[name])` (`SectionProxy.__iter__`): the defaults for the
reserved name, `parser.options(name)` otherwise. -/
def ConfigParser.proxyOptions (cp : ConfigParser) (name : String) : List String :=
  if name == "DEFAULT" then cp.defaults.map Prod.fst
  else (cp.options name).toOption.getD []

/-- `parser.get(section, option)` as an `Option`: `optionxform` is applied to
the option name, the section's entries are consulted first and the defaults
as fallback (`_unify_values`' chain map); `none` covers both `NoSectionError`
and `NoOptionError`.  This is the value access `config[section][option]`
performs inside `validate_config`. -/
def ConfigParser.getValue (cp : ConfigParser) (sec option : String) : Option String :=
  let o := xformName cp.caseSensitive option
  if sec == "DEFAULT" then cp.defaults.lookup o
  else
    match cp.sections.lookup sec with
    | none => none
    | some own => ((own.lookup o).orElse (fun _ => cp.defaults.lookup o))

/-! ## The validator (`validation.py`) -/

/-- The `InvalidConfigError` hierarchy with the context each constructor of
`validation.py` carries. -/
inductive InvalidConfigError
  | invalidSection (sec : String) (validSections : List String)
  | invalidOption (sec option : String) (validOptions : List String)
  | invalidValue (sec option value validValue : String)
deriving Repr, DecidableEq

/-- The per-pattern test of `_validate_section`'s loop body:
`section != "DEFAULT" and re.compile(valid_section).match(section)`. -/
def sectionTest (sec : String) (valid_section : String) : Bool :=
  sec != "DEFAULT" && re_match valid_section sec

/-- `_validate_section`: first pattern passing `sectionTest` in order, else
`InvalidSectionError(section, [s for s in valid_sections if s != "DEFAULT"])`.
The `for` loop with early `return` is the first element `find?` yields. -/
def validate_section (sec : String) (valid_sections : List String) :
    Except InvalidConfigError String :=
  match valid_sections.find? (sectionTest sec) with
  | some valid_section => Except.ok valid_section
  | none =>
    Except.error (InvalidConfigError.invalidSection sec
      (valid_sections.filter (fun s => s != "DEFAULT")))

/-- `_validate_option`: first pattern whose compiled regex matches the option
name, else `InvalidOptionError(section, option, valid_options)`. -/
def validate_option (sec option : String) (valid_options : List String) :
    Except InvalidConfigError String :=
  match valid_options.find? (fun valid_option => re_match valid_option option) with
  | some valid_option => Except.ok valid_option
  | none => Except.error (InvalidConfigError.invalidOption sec option valid_options)

/-- `_validate_value`: the stored value must match the value pattern, else
`InvalidValueError(section, option, value, valid_value)`. -/
def validate_value (sec option value valid_value : String) :
    Except InvalidConfigError Unit :=
  if re_match valid_value value then Except.ok ()
  else Except.error (InvalidConfigError.invalidValue sec option value valid_value)

/-- The inner `for option in config.options(section)` loop of
`validate_config`: validate each option name against the matched schema
section's option patterns, then the stored value against the value pattern
`schema[schema_section][schema_option]`; the first raised error propagates. -/
def validateOptionsLoop (config schema : ConfigParser) (sec schema_section : String) :
    List String → Except InvalidConfigError Unit
  | [] => Except.ok ()
  | option :: rest =>
    match validate_option sec option (schema.proxyOptions schema_section) with
    | Except.error e => Except.error e
    | Except.ok schema_option =>
      match validate_value sec option ((config.getValue sec option).getD "")
          ((schema.getValue schema_section schema_option).getD "") with
      | Except.error e => Except.error e
      | Except.ok _ => validateOptionsLoop config schema sec schema_section rest

/-- The outer `for section in config.sections()` loop of `validate_config`:
resolve the section against `list(schema)`, then run the option loop. -/
def validateSectionsLoop (config schema : ConfigParser) :
    List String → Except InvalidConfigError Unit
  | [] => Except.ok ()
  | sec :: rest =>
    match validate_section sec schema.iterNames with
    | Except.error e => Except.error e
    | Except.ok schema_section =>
      match validateOptionsLoop config schema sec schema_section
          ((config.options sec).toOption.getD []) with
      | Except.error e => Except.error e
      | Except.ok _ => validateSectionsLoop config schema rest

/-- `validate_config(config, schema)`: success, or the first error raised. -/
def validate_config (config schema : ConfigParser) : Except InvalidConfigError Unit :=
  validateSectionsLoop config schema config.sectionNames

/-! ## Declarative matching (the specification side of claim C1) -/

/-- The first section pattern of `list(schema)` the candidate section
satisfies (reserved name excluded). -/
def sectionFirstMatch (schema : ConfigParser) (sec : String) : Option String :=
  schema.iterNames.find? (sectionTest sec)

/-- The first option pattern of a candidate list the option name matches. -/
def optionFirstMatch (valid_options : List String) (option : String) : Option String :=
  valid_options.find? (fun valid_option => re_match valid_option option)

/-- The declarative reading of spec sentence §8/C1: every concrete section
resolves to some section pattern, every option of that section (the merged
`DEFAULT` entries included) resolves to some option pattern of the matched
schema entry, and the stored value matches that pattern's value pattern. -/
def ConfigOK (config schema : ConfigParser) : Prop :=
  ∀ sec ∈ config.sectionNames, ∃ sp, sectionFirstMatch schema sec = some sp ∧
    ∀ option ∈ (config.options sec).toOption.getD [], ∃ op,
      optionFirstMatch (schema.proxyOptions sp) option = some op ∧
      re_match ((schema.getValue sp op).getD "") ((config.getValue sec option).getD "") = true

/-! ## The validated configuration store (`ValidConfig`, `ConfigCLI`) -/

/-- The section/option/value triples a config source parses into, before
`optionxform` is applied (the `DEFAULT` block separated as `configparser`
stores it). -/
structure RawConfig where
  defaults : Entries
  sections : List (String × Entries)
deriving Repr, DecidableEq

/-- `parser.read(file)`: option names pass through `optionxform`, section
names are kept verbatim. -/
def readConfig (caseSensitive : Bool) (raw : RawConfig) : ConfigParser :=
  { caseSensitive := caseSensitive
    defaults := raw.defaults.map (fun kv => (xformName caseSensitive kv.1, kv.2))
    sections := raw.sections.map
      (fun s => (s.1, s.2.map (fun kv => (xformName caseSensitive kv.1, kv.2)))) }

/-- Why `ValidConfig.__init__` fails: the `ValueError` `_get_schema` raises
for a missing schema file, or the `InvalidConfigError` the immediate
validation raises. -/
inductive LoadError
  | schemaLoadError
  | validationError (e : InvalidConfigError)
deriving Repr, DecidableEq

/-- A constructed store: the owned configuration and schema parsers plus the
backing file's persisted contents (`none`: no file on disk). -/
structure Store where
  config : ConfigParser
  schema : ConfigParser
  persisted : Option ConfigParser
deriving Repr, DecidableEq

/-- `ValidConfig.__init__`: `self.read(config_file)` ignores a missing config
file (the parser stays empty), `_get_schema` raises `ValueError` when the
schema file does not exist (the schema parser uses the default lower-casing
`optionxform`), and `_validate` immediately re-raises any validation error of
the freshly loaded configuration. -/
def ValidConfig.load (configData : Option RawConfig) (schemaData : Option RawConfig)
    (use_case_sensitive_option_names : Bool) : Except LoadError Store :=
  match schemaData with
  | none => Except.error LoadError.schemaLoadError
  | some sd =>
    match validate_config
        (readConfig use_case_sensitive_option_names (configData.getD { defaults := [], sections := [] }))
        (readConfig false sd) with
    | Except.error e => Except.error (LoadError.validationError e)
    | Except.ok _ => Except.ok
        { config := readConfig use_case_sensitive_option_names
            (configData.getD { defaults := [], sections := [] })
          schema := readConfig false sd
          persisted := configData.map (readConfig use_case_sensitive_option_names) }

/-- `ValidConfig.save`: `_validate` first — an `InvalidConfigError` propagates
before anything touches the disk, leaving the persisted contents as they
were; on success the parent directories are created and the whole current
configuration is written out. -/
def ValidConfig.save (st : Store) : Option InvalidConfigError × Store :=
  match validate_config st.config st.schema with
  | Except.error e => (some e, st)
  | Except.ok _ => (none, { st with persisted := some st.config })

/-- Remove every pair stored under a key (`del dict[key]`). -/
def removeKey (l : Entries) (k : String) : Entries :=
  l.filter (fun kv => kv.1 != k)

/-- Dict assignment `d[k] = v`: overwrite in place, else append. -/
def setKey (l : Entries) (k v : String) : Entries :=
  if (l.map Prod.fst).contains k then l.map (fun kv => if kv.1 == k then (k, v) else kv)
  else l ++ [(k, v)]

/-- The parser with the entry of one (already transformed) option name
deleted from one section's stored entries (`del sectdict[option]`). -/
def ConfigParser.removeOptionIn (cp : ConfigParser) (sec o : String) : ConfigParser :=
  { cp with sections :=
      cp.sections.map (fun s => if s.1 == sec then (s.1, removeKey s.2 o) else s) }

/-- `parser.remove_option(section, option)`: `if not section or section ==
self.default_section` targets the defaults first (an empty section name is a
falsy alias for the reserved section); otherwise an unknown section raises
`NoSectionError`, else `optionxform` the option, delete it from the section's
own entries if present, and report whether it existed. -/
def ConfigParser.remove_option (cp : ConfigParser) (sec option : String) :
    Except String (ConfigParser × Bool) :=
  if sec == "" || sec == "DEFAULT" then
    if (cp.defaults.map Prod.fst).contains (xformName cp.caseSensitive option) then
      let newDefaults := removeKey cp.defaults (xformName cp.caseSensitive option)
      Except.ok ({ cp with defaults := newDefaults }, true)
    else Except.ok (cp, false)
  else
    match cp.sections.lookup sec with
    | some own =>
      if (own.map Prod.fst).contains (xformName cp.caseSensitive option) then
        Except.ok (cp.removeOptionIn sec (xformName cp.caseSensitive option), true)
      else Except.ok (cp, false)
    | none => Except.error sec

/-- The parser with one stored section deleted (`del self._sections[sec]`). -/
def ConfigParser.dropSection (cp : ConfigParser) (sec : String) : ConfigParser :=
  { cp with sections := cp.sections.filter (fun s => s.1 != sec) }

/-- `parser.remove_section(section)`: delete a stored section, reporting
whether it existed. -/
def ConfigParser.remove_section (cp : ConfigParser) (sec : String) : ConfigParser × Bool :=
  if (cp.sections.map Prod.fst).contains sec then (cp.dropSection sec, true)
  else (cp, false)

/-- Lookup failures of `get`/`remove_option` (`NoSectionError`,
`NoOptionError`). -/
inductive LookupError
  | noSection (sec : String)
  | noOption (sec option : String)
deriving Repr, DecidableEq

/-- `parser.get(section, option)` with the errors it raises: `NoSectionError`
for an unknown non-reserved section, else `optionxform` the option and read
it through the section-then-defaults chain, `NoOptionError` when absent. -/
def ConfigParser.get (cp : ConfigParser) (sec option : String) :
    Except LookupError String :=
  let o := xformName cp.caseSensitive option
  if sec == "DEFAULT" then
    match cp.defaults.lookup o with
    | some v => Except.ok v
    | none => Except.error (LookupError.noOption sec o)
  else
    match cp.sections.lookup sec with
    | none => Except.error (LookupError.noSection sec)
    | some own =>
      match (own.lookup o).orElse (fun _ => cp.defaults.lookup o) with
      | some v => Except.ok v
      | none => Except.error (LookupError.noOption sec o)

/-- `parser.set(section, option, value)`: `if not section or section ==
self.default_section` writes to the defaults (the empty section name again
aliasing the reserved section); an unknown section raises `NoSectionError`;
otherwise the `optionxform`ed option name is stored in the section. -/
def ConfigParser.set (cp : ConfigParser) (sec option value : String) :
    Except LookupError ConfigParser :=
  if sec == "" || sec == "DEFAULT" then
    Except.ok { cp with defaults := setKey cp.defaults (xformName cp.caseSensitive option) value }
  else
    match cp.sections.lookup sec with
    | none => Except.error (LookupError.noSection sec)
    | some _ =>
      let newSections := cp.sections.map
        (fun s => if s.1 == sec then (s.1, setKey s.2 (xformName cp.caseSensitive option) value) else s)
      Except.ok { cp with sections := newSections }

/-- How a CLI mutator run ends when it does not succeed: a caught
`NoSectionError` (exit 1), or `ConfigCLI._validate`'s exit 1 on the
validation error `save` raised. -/
inductive CLIError
  | noSection (sec : String)
  | invalidConfig (e : InvalidConfigError)
deriving Repr, DecidableEq

/-- `ConfigCLI._unset_option`: `remove_option`; on `False` (option absent)
`pass` — no save, nothing changes; on removal, drop the section when
`self.options(section)` turned empty, then `save`; a `NoSectionError` from
either lookup is caught and turned into exit 1. -/
def ConfigCLI.unset_option (st : Store) (sec option : String) : Except CLIError Store :=
  match st.config.remove_option sec option with
  | Except.error s => Except.error (CLIError.noSection s)
  | Except.ok (_, false) => Except.ok st
  | Except.ok (cp2, true) =>
    match cp2.options sec with
    | Except.error s => Except.error (CLIError.noSection s)
    | Except.ok opts =>
      match ValidConfig.save { st with config :=
          match opts with
          | [] => (cp2.remove_section sec).1
          | _ :: _ => cp2 } with
      | (some e, _) => Except.error (CLIError.invalidConfig e)
      | (none, st4) => Except.ok st4

/-! ## Concrete stores used by counterexamples and witnesses -/

/-- A store whose section `s` holds the single option `o` while the reserved
`DEFAULT` section holds a fallback value for the same option name, so `o` is
the one and only option of `s` under any reading of "its options"; the schema
accepts both the initial and the mutated configuration. -/
def storeC5 : Store :=
  { config := { caseSensitive := false, defaults := [("o", "v")], sections := [("s", [("o", "1")])] }
    schema := { caseSensitive := false, defaults := [], sections := [("s", [("o", ".")])] }
    persisted := none }

/-- A store with no fallback options whose section `s` holds the single
option `o`. -/
def storeC5w : Store :=
  { config := { caseSensitive := false, defaults := [], sections := [("s", [("o", "1")])] }
    schema := { caseSensitive := false, defaults := [], sections := [("s", [("o", "1")])] }
    persisted := none }

/-- A case-sensitive parser storing the mixed-case option name `Ab`. -/
def cpSensitive : ConfigParser :=
  { caseSensitive := true, defaults := [], sections := [("s", [("Ab", "1")])] }

/-- A case-insensitive parser storing the canonical option name `ab`. -/
def cpInsensitive : ConfigParser :=
  { caseSensitive := false, defaults := [], sections := [("s", [("ab", "1")])] }

/-- Lower-case every option name of a raw config source (the section names
untouched), for stating where canonicalization happens. -/
def RawConfig.lowerOptionNames (raw : RawConfig) : RawConfig :=
  { defaults := raw.defaults.map (fun kv => (lowerString kv.1, kv.2))
    sections := raw.sections.map (fun s => (s.1, s.2.map (fun kv => (lowerString kv.1, kv.2)))) }

/-! ## Helper lemmas -/

theorem toNat_lowerChar_of_upper (c : Char) (h1 : 65 ≤ c.toNat) (h2 : c.toNat ≤ 90) :
    (lowerChar c).toNat = c.toNat + 32 := by
  unfold lowerChar
  rw [if_pos ⟨h1, h2⟩]
  have hv : (c.toNat + 32).isValidChar := Or.inl (by omega)
  rw [Char.ofNat, dif_pos hv]
  simp [Char.ofNatAux, Char.toNat, UInt32.toNat, BitVec.toNat_ofNatLt]

theorem lowerChar_not_upper (c : Char) :
    ¬(65 ≤ (lowerChar c).toNat ∧ (lowerChar c).toNat ≤ 90) := by
  by_cases h : 65 ≤ c.toNat ∧ c.toNat ≤ 90
  · rw [toNat_lowerChar_of_upper c h.1 h.2]; omega
  · unfold lowerChar
    rw [if_neg h]
    exact h

theorem lowerChar_idem (c : Char) : lowerChar (lowerChar c) = lowerChar c := by
  have h := lowerChar_not_upper c
  show (if 65 ≤ (lowerChar c).toNat ∧ (lowerChar c).toNat ≤ 90 then
      Char.ofNat ((lowerChar c).toNat + 32) else lowerChar c) = lowerChar c
  rw [if_neg h]

theorem lowerString_idem (s : String) : lowerString (lowerString s) = lowerString s := by
  unfold lowerString
  show String.mk ((s.data.map lowerChar).map lowerChar) = String.mk (s.data.map lowerChar)
  rw [List.map_map]
  exact congrArg String.mk (List.map_congr_left (fun c _ => lowerChar_idem c))

theorem xformName_false_lower (o : String) :
    xformName false (lowerString o) = xformName false o := by
  simp [xformName, lowerString_idem]

/-! ## The claims -/

/-- C3: for every candidate pattern list, validating the reserved name
`DEFAULT` as a normal section raises `InvalidSectionError` (even when a
pattern matches the string `DEFAULT`, as the last two conjuncts instantiate),
and every `InvalidSectionError`'s carried candidate list has the reserved
entry `DEFAULT` filtered out. -/
theorem C3_default_always_rejected :
    (∀ valid_sections : List String,
      validate_section "DEFAULT" valid_sections =
        Except.error (InvalidConfigError.invalidSection "DEFAULT"
          (valid_sections.filter (fun s => s != "DEFAULT"))))
  ∧ (∀ (sec : String) (valid_sections : List String) (e : InvalidConfigError),
      validate_section sec valid_sections = Except.error e →
      ∃ l, e = InvalidConfigError.invalidSection sec l ∧ "DEFAULT" ∉ l)
  ∧ re_match "DEFAULT" "DEFAULT" = true
  ∧ validate_section "DEFAULT" ["DEFAULT", "DEF.*"] =
      Except.error (InvalidConfigError.invalidSection "DEFAULT" ["DEF.*"]) := by
  refine ⟨fun valid_sections => ?_, fun sec valid_sections e h => ?_, by decide, rfl⟩
  · unfold validate_section
    have hf : valid_sections.find? (sectionTest "DEFAULT") = none := by
      rw [List.find?_eq_none]
      intro x _
      simp [sectionTest]
    rw [hf]
  · unfold validate_section at h
    cases hf : valid_sections.find? (sectionTest sec) with
    | some v => rw [hf] at h; cases h
    | none =>
      rw [hf] at h
      cases h
      refine ⟨_, rfl, ?_⟩
      intro hmem
      rw [List.mem_filter] at hmem
      simp at hmem

/-- C4: `save` validates first; a validation error is surfaced and the state
(the persisted file included) is left exactly as it was, while on success the
whole current configuration becomes the persisted snapshot. -/
theorem C4_save_revalidates : ∀ st : Store,
    (∀ e, validate_config st.config st.schema = Except.error e →
      ValidConfig.save st = (some e, st))
  ∧ (validate_config st.config st.schema = Except.ok () →
      ValidConfig.save st = (none, { st with persisted := some st.config })) := by
  intro st
  constructor
  · intro e h
    unfold ValidConfig.save
    rw [h]
  · intro h
    unfold ValidConfig.save
    rw [h]

/-- C6: construction with a missing schema file fails with the
`ValueError`-class load error no matter what the configuration holds (so
before any validation), and when the schema loads, any validation error of
the freshly read configuration propagates out of construction. -/
theorem C6_construction_errors : ∀ (configData : Option RawConfig) (cs : Bool),
    ValidConfig.load configData none cs = Except.error LoadError.schemaLoadError
  ∧ (∀ (sd : RawConfig) (e : InvalidConfigError),
      validate_config (readConfig cs (configData.getD { defaults := [], sections := [] }))
        (readConfig false sd) = Except.error e →
      ValidConfig.load configData (some sd) cs =
        Except.error (LoadError.validationError e)) := by
  intro configData cs
  constructor
  · rfl
  · intro sd e h
    unfold ValidConfig.load
    dsimp only
    rw [h]

/-- C8: the embedding of `validate_config` is a pure function of the
configuration and schema values, so an unmodified pair gives the same result
on every run: the same success, or the same error constructor with the same
carried context. -/
theorem C8_validation_deterministic : ∀ config schema : ConfigParser,
    validate_config config schema = validate_config config schema
  ∧ (∀ e1 e2, validate_config config schema = Except.error e1 →
      validate_config config schema = Except.error e2 → e1 = e2) := by
  intro config schema
  refine ⟨rfl, fun e1 e2 h1 h2 => ?_⟩
  rw [h1] at h2
  cases h2
  rfl

/-- C10: a missing configuration file is no error — construction with an
existing schema succeeds with an empty (hence valid) configuration and no
persisted contents — while a missing schema file alone fails construction. -/
theorem C10_missing_config_file_ok : ∀ (sd : RawConfig) (cs : Bool) (cd : Option RawConfig),
    (∃ st, ValidConfig.load none (some sd) cs = Except.ok st ∧
      st.config.sectionNames = [] ∧ st.persisted = none)
  ∧ ValidConfig.load cd none cs = Except.error LoadError.schemaLoadError := by
  intro sd cs cd
  exact ⟨⟨_, rfl, rfl, rfl⟩, rfl⟩

/-- A `find?` characterization of `_validate_option`'s loop: success returns
exactly the first matching pattern. -/
theorem validate_option_ok_iff (sec option : String) (valid_options : List String) (p : String) :
    validate_option sec option valid_options = Except.ok p ↔
      optionFirstMatch valid_options option = some p := by
  unfold validate_option optionFirstMatch
  cases hf : valid_options.find? (fun valid_option => re_match valid_option option) with
  | none => simp
  | some q => simp

/-- The matching `find?` characterization of `_validate_section`'s loop. -/
theorem validate_section_ok_iff (sec : String) (valid_sections : List String) (p : String) :
    validate_section sec valid_sections = Except.ok p ↔
      valid_sections.find? (sectionTest sec) = some p := by
  unfold validate_section
  cases hf : valid_sections.find? (sectionTest sec) with
  | none => simp
  | some q => simp

/-- `find?` returns the head of the first matching decomposition. -/
theorem find?_of_split {α : Type} (p : α → Bool) (x : α) (pre post : List α)
    (hx : p x = true) (hpre : ∀ q ∈ pre, p q = false) :
    (pre ++ x :: post).find? p = some x := by
  induction pre with
  | nil => exact List.find?_cons_of_pos _ hx
  | cons q rest ih =>
    have hq : p q = false := hpre q (List.mem_cons_self q rest)
    have tail := ih (fun r hr => hpre r (List.mem_cons_of_mem q hr))
    rw [List.cons_append, List.find?_cons_of_neg _ (by simp [hq])]
    exact tail

/-- A key listed among an association list's keys can be looked up. -/
theorem lookup_of_mem_keys {β : Type} (l : List (String × β)) (k : String)
    (h : k ∈ l.map Prod.fst) : ∃ v, l.lookup k = some v := by
  have hs : (l.lookup k).isSome := by
    rw [List.lookup_isSome_iff]
    obtain ⟨pair, hpair, hfst⟩ := List.mem_map.mp h
    exact ⟨pair, hpair, by simp [hfst]⟩
  exact Option.isSome_iff_exists.mp hs

/-- Every `DEFAULT` key survives the `dict.update` merge of
`parser.options`. -/
theorem mem_mergeKeys_of_mem_defaults (own defaults : Entries) (p : String)
    (hp : p ∈ defaults.map Prod.fst) : p ∈ mergeKeys own defaults := by
  unfold mergeKeys
  by_cases hin : (own.map Prod.fst).contains p
  · exact List.mem_append_left _ (by simpa using hin)
  · refine List.mem_append_right _ ?_
    rw [List.mem_filter]
    exact ⟨hp, by simpa using hin⟩

/-- C2: the matcher used for options iterates the candidate patterns in the
given order and succeeds with the first one whose compiled regex matches the
candidate starting at position 0 (first match, not best match); the match is
prefix-anchored, not full-string (`"a"` matches `"ab"`, unless the author
anchors with `$`); in particular `["a.*", "ab"]` against `"ab"` yields
`"a.*"`. -/
theorem C2_first_match_wins :
    (∀ (sec option p : String) (valid_options : List String),
      validate_option sec option valid_options = Except.ok p ↔
        ∃ pre post, valid_options = pre ++ p :: post ∧ re_match p option = true ∧
          ∀ q ∈ pre, re_match q option = false)
  ∧ re_match "a" "ab" = true
  ∧ re_match "^a$" "ab" = false
  ∧ validate_option "s" "ab" ["a.*", "ab"] = Except.ok "a.*" := by
  refine ⟨fun sec option p valid_options => ?_, by decide, by decide, rfl⟩
  rw [validate_option_ok_iff]
  unfold optionFirstMatch
  constructor
  · intro h
    rw [List.find?_eq_some] at h
    obtain ⟨hp, pre, post, heq, hpre⟩ := h
    refine ⟨pre, post, heq, hp, fun q hq => ?_⟩
    have := hpre q hq
    simpa using this
  · rintro ⟨pre, post, rfl, hp, hpre⟩
    exact find?_of_split _ p pre post hp hpre

/-- C9: the reserved `DEFAULT` section is a fallback on both sides of
validation.  For every name the validator can resolve a section to (an
element of `list(schema)`, which `_validate_section` always returns), the
schema's `DEFAULT` option patterns are among the candidate option patterns;
and inside every concrete section of the configuration, the options held in
the configuration's `DEFAULT` section are among the option names the
validator iterates. -/
theorem C9_default_is_fallback : ∀ (schema config : ConfigParser),
    (∀ sp ∈ schema.iterNames, ∀ p ∈ schema.defaults.map Prod.fst, p ∈ schema.proxyOptions sp)
  ∧ (∀ (sec : String) (valid_sections : List String) (sp : String),
      validate_section sec valid_sections = Except.ok sp → sp ∈ valid_sections)
  ∧ (∀ sec ∈ config.sectionNames, ∀ o ∈ config.defaults.map Prod.fst,
      o ∈ (config.options sec).toOption.getD []) := by
  intro schema config
  refine ⟨fun sp hsp p hp => ?_, fun sec vs sp h => ?_, fun sec hsec o ho => ?_⟩
  · unfold ConfigParser.proxyOptions
    by_cases hd : sp == "DEFAULT"
    · rw [if_pos hd]; exact hp
    · rw [if_neg hd]
      have hsp2 : sp ∈ schema.sectionNames := by
        cases hsp with
        | head => simp at hd
        | tail _ h => exact h
      unfold ConfigParser.sectionNames at hsp2
      obtain ⟨own, hown⟩ := lookup_of_mem_keys schema.sections sp hsp2
      unfold ConfigParser.options
      rw [hown]
      exact mem_mergeKeys_of_mem_defaults own schema.defaults p hp
  · rw [validate_section_ok_iff] at h
    exact List.mem_of_find?_eq_some h
  · unfold ConfigParser.sectionNames at hsec
    obtain ⟨own, hown⟩ := lookup_of_mem_keys config.sections sec hsec
    unfold ConfigParser.options
    rw [hown]
    exact mem_mergeKeys_of_mem_defaults own config.defaults o ho

/-- The option loop of `validate_config` succeeds exactly when every iterated
option resolves to a first matching option pattern whose value pattern
matches the stored value. -/
theorem validateOptionsLoop_ok_iff (config schema : ConfigParser) (sec sp : String)
    (opts : List String) :
    validateOptionsLoop config schema sec sp opts = Except.ok () ↔
      ∀ option ∈ opts, ∃ op, optionFirstMatch (schema.proxyOptions sp) option = some op ∧
        re_match ((schema.getValue sp op).getD "") ((config.getValue sec option).getD "") = true := by
  induction opts with
  | nil => simp [validateOptionsLoop]
  | cons o rest ih =>
    rw [List.forall_mem_cons]
    rcases hvo : validate_option sec o (schema.proxyOptions sp) with e | schema_option
    · simp only [validateOptionsLoop, hvo]
      constructor
      · intro h; cases h
      · rintro ⟨⟨op, hop, _⟩, _⟩
        have hok := (validate_option_ok_iff sec o (schema.proxyOptions sp) op).mpr hop
        rw [hok] at hvo
        cases hvo
    · have hop : optionFirstMatch (schema.proxyOptions sp) o = some schema_option :=
        (validate_option_ok_iff sec o (schema.proxyOptions sp) schema_option).mp hvo
      simp only [validateOptionsLoop, hvo]
      cases hv : re_match ((schema.getValue sp schema_option).getD "")
          ((config.getValue sec o).getD "") with
      | true =>
        have hval : validate_value sec o ((config.getValue sec o).getD "")
            ((schema.getValue sp schema_option).getD "") = Except.ok () := by
          unfold validate_value
          rw [if_pos hv]
        simp only [hval]
        rw [ih]
        constructor
        · intro h
          exact ⟨⟨schema_option, hop, hv⟩, h⟩
        · exact fun h => h.2
      | false =>
        have hval : validate_value sec o ((config.getValue sec o).getD "")
            ((schema.getValue sp schema_option).getD "") =
            Except.error (InvalidConfigError.invalidValue sec o
              ((config.getValue sec o).getD "")
              ((schema.getValue sp schema_option).getD "")) := by
          unfold validate_value
          rw [if_neg (by simp [hv])]
        simp only [hval]
        constructor
        · intro h; cases h
        · rintro ⟨⟨op, hop2, hre⟩, _⟩
          rw [hop] at hop2
          cases hop2
          rw [hre] at hv
          cases hv

/-- The section loop of `validate_config` succeeds exactly when every
iterated section resolves to a first matching section pattern whose option
loop succeeds. -/
theorem validateSectionsLoop_ok_iff (config schema : ConfigParser) (secs : List String) :
    validateSectionsLoop config schema secs = Except.ok () ↔
      ∀ sec ∈ secs, ∃ sp, sectionFirstMatch schema sec = some sp ∧
        ∀ option ∈ (config.options sec).toOption.getD [], ∃ op,
          optionFirstMatch (schema.proxyOptions sp) option = some op ∧
          re_match ((schema.getValue sp op).getD "")
            ((config.getValue sec option).getD "") = true := by
  induction secs with
  | nil => simp [validateSectionsLoop]
  | cons sec rest ih =>
    rw [List.forall_mem_cons]
    rcases hvs : validate_section sec schema.iterNames with e | sp
    · simp only [validateSectionsLoop, hvs]
      constructor
      · intro h; cases h
      · rintro ⟨⟨sp, hsp, _⟩, _⟩
        have hok := (validate_section_ok_iff sec schema.iterNames sp).mpr hsp
        rw [hok] at hvs
        cases hvs
    · have hsp : sectionFirstMatch schema sec = some sp :=
        (validate_section_ok_iff sec schema.iterNames sp).mp hvs
      simp only [validateSectionsLoop, hvs]
      rcases hloop : validateOptionsLoop config schema sec sp
          ((config.options sec).toOption.getD []) with e | u
      · simp only [hloop]
        constructor
        · intro h; cases h
        · rintro ⟨⟨sp2, hsp2, hopts⟩, _⟩
          rw [hsp] at hsp2
          cases hsp2
          have hok := (validateOptionsLoop_ok_iff config schema sec sp
            ((config.options sec).toOption.getD [])).mpr hopts
          rw [hok] at hloop
          cases hloop
      · cases u
        simp only [hloop]
        rw [ih]
        constructor
        · intro h
          refine ⟨⟨sp, hsp, ?_⟩, h⟩
          exact (validateOptionsLoop_ok_iff config schema sec sp
            ((config.options sec).toOption.getD [])).mp hloop
        · exact fun h => h.2

/-- C1: `validate_config(C, S)` succeeds (raises nothing) iff every concrete
section of the configuration resolves to a section pattern of `list(schema)`
(the reserved fallback name is skipped as a candidate section and the
resolution picks the first match), every option the validator iterates in
that section (the `DEFAULT` fallback entries included, per the data model's
merge) resolves to a first matching option pattern of the matched schema
entry, and the stored value matches that pattern's associated value
pattern — the declarative reading `ConfigOK`. -/
theorem C1_validate_config_iff (config schema : ConfigParser) :
    validate_config config schema = Except.ok () ↔ ConfigOK config schema := by
  unfold validate_config ConfigOK
  exact validateSectionsLoop_ok_iff config schema config.sectionNames

/-- Updating the entries stored under one key commutes with `lookup` of that
key. -/
theorem lookup_map_update {β : Type} (sec : String) (g : β → β) (l : List (String × β)) :
    (l.map (fun s => if s.1 == sec then (s.1, g s.2) else s)).lookup sec =
      (l.lookup sec).map g := by
  induction l with
  | nil => rfl
  | cons kv rest ih =>
    rcases kv with ⟨k, v⟩
    rw [List.map_cons]
    dsimp only
    by_cases h : k = sec
    · subst h
      rw [if_pos (by simp), List.lookup_cons, List.lookup_cons]
      simp
    · rw [if_neg (by simp [h]), List.lookup_cons, List.lookup_cons]
      have h2 : (sec == k) = false := by simp [Ne.symm h]
      simp only [h2]
      exact ih

/-- Updating the entries stored under one key leaves the key list as it
was. -/
theorem keys_map_update {β : Type} (sec : String) (g : β → β) (l : List (String × β)) :
    (l.map (fun s => if s.1 == sec then (s.1, g s.2) else s)).map Prod.fst =
      l.map Prod.fst := by
  induction l with
  | nil => rfl
  | cons kv rest ih =>
    rcases kv with ⟨k, v⟩
    rw [List.map_cons]
    dsimp only
    by_cases h : k = sec
    · rw [if_pos (by simp [h]), List.map_cons, List.map_cons]
      dsimp only
      rw [ih]
    · rw [if_neg (by simp [h]), List.map_cons, List.map_cons]
      dsimp only
      rw [ih]

/-- A key is gone from the key list after filtering its pairs out. -/
theorem not_mem_keys_filter {β : Type} (sec : String) (l : List (String × β)) :
    sec ∉ (l.filter (fun s => s.1 != sec)).map Prod.fst := by
  intro h
  obtain ⟨pair, hpair, hfst⟩ := List.mem_map.mp h
  rw [List.mem_filter] at hpair
  have h2 := hpair.2
  rw [hfst] at h2
  simp at h2

/-- A key that can be looked up is listed among the keys. -/
theorem mem_keys_of_lookup {β : Type} (l : List (String × β)) (k : String) (v : β)
    (h : l.lookup k = some v) : k ∈ l.map Prod.fst := by
  induction l with
  | nil => simp at h
  | cons kv rest ih =>
    rcases kv with ⟨a, b⟩
    cases hka : k == a with
    | true =>
      have he : k = a := by simpa using hka
      simp [he]
    | false =>
      rw [List.lookup_cons] at h
      simp only [hka] at h
      simp [ih h]

/-- With fallback entries present, the merged option listing is never
empty. -/
theorem mergeKeys_ne_empty_of_defaults (own defaults : Entries) (h : defaults ≠ []) :
    (mergeKeys own defaults).isEmpty = false := by
  rcases defaults with _ | ⟨d, rest⟩
  · exact absurd rfl h
  · have hmem : d.1 ∈ ((d :: rest).map Prod.fst : List String) := by simp
    have hin := mem_mergeKeys_of_mem_defaults own (d :: rest) d.1 hmem
    rcases hk : mergeKeys own (d :: rest) with _ | ⟨x, xs⟩
    · rw [hk] at hin; simp at hin
    · simp [List.isEmpty]

/-- `remove_option` on a stored section without the (transformed) option:
nothing removed. -/
theorem remove_option_absent (cp : ConfigParser) (sec option : String) (own : Entries)
    (hne : sec ≠ "") (hnd : sec ≠ "DEFAULT")
    (hown : cp.sections.lookup sec = some own)
    (hcon : (own.map Prod.fst).contains (xformName cp.caseSensitive option) = false) :
    cp.remove_option sec option = Except.ok (cp, false) := by
  unfold ConfigParser.remove_option
  rw [if_neg (by simp [hne, hnd])]
  simp only [hown]
  rw [if_neg (by rw [hcon]; simp)]

/-- `remove_option` on a stored section holding the (transformed) option:
the option's entry is deleted in place. -/
theorem remove_option_present (cp : ConfigParser) (sec option : String) (own : Entries)
    (hne : sec ≠ "") (hnd : sec ≠ "DEFAULT")
    (hown : cp.sections.lookup sec = some own)
    (hcon : (own.map Prod.fst).contains (xformName cp.caseSensitive option) = true) :
    cp.remove_option sec option = Except.ok
      (cp.removeOptionIn sec (xformName cp.caseSensitive option), true) := by
  unfold ConfigParser.remove_option
  rw [if_neg (by simp [hne, hnd])]
  simp only [hown]
  rw [if_pos hcon]

/-- `remove_option` on an unknown non-reserved section raises
`NoSectionError`. -/
theorem remove_option_no_section (cp : ConfigParser) (sec option : String)
    (hne : sec ≠ "") (hnd : sec ≠ "DEFAULT")
    (hown : cp.sections.lookup sec = none) :
    cp.remove_option sec option = Except.error sec := by
  unfold ConfigParser.remove_option
  rw [if_neg (by simp [hne, hnd])]
  simp [hown]

/-- C5 counterexample: in `storeC5`, the option `o` is the last remaining
option of section `s` (its option listing is exactly `[o]`, stored and
merged alike), yet `_unset_option` removes the option, keeps the emptied
section — the fallback `DEFAULT` entry makes `self.options("s")` non-empty —
and saves it: the persisted snapshot still contains section `s`, against the
claim's "removes ... the now-empty section before save". -/
theorem C5_counterexample :
    ConfigCLI.unset_option storeC5 "s" "o" = Except.ok
      { config := { caseSensitive := false, defaults := [("o", "v")], sections := [("s", [])] }
        schema := storeC5.schema
        persisted := some
          { caseSensitive := false, defaults := [("o", "v")], sections := [("s", [])] } } := rfl


/-- The mutated section is looked up as its entries with the option's pairs
deleted. -/
theorem removeOptionIn_lookup (cp : ConfigParser) (sec o : String) :
    (cp.removeOptionIn sec o).sections.lookup sec =
      (cp.sections.lookup sec).map (fun e => removeKey e o) := by
  unfold ConfigParser.removeOptionIn
  exact lookup_map_update sec (fun e => removeKey e o) cp.sections

/-- Deleting an option changes no section names. -/
theorem removeOptionIn_keys (cp : ConfigParser) (sec o : String) :
    (cp.removeOptionIn sec o).sections.map Prod.fst = cp.sections.map Prod.fst := by
  unfold ConfigParser.removeOptionIn
  exact keys_map_update sec (fun e => removeKey e o) cp.sections

/-- `parser.options` after the in-place option deletion. -/
theorem options_removeOptionIn (cp : ConfigParser) (sec o : String) (own : Entries)
    (hown : cp.sections.lookup sec = some own) :
    (cp.removeOptionIn sec o).options sec =
      Except.ok (mergeKeys (removeKey own o) cp.defaults) := by
  unfold ConfigParser.options
  rw [removeOptionIn_lookup, hown]
  rfl

/-- `remove_section` succeeds on the section that just lost an option. -/
theorem remove_section_removeOptionIn (cp : ConfigParser) (sec o : String) (own : Entries)
    (hown : cp.sections.lookup sec = some own) :
    (cp.removeOptionIn sec o).remove_section sec =
      ((cp.removeOptionIn sec o).dropSection sec, true) := by
  have hc : ((cp.removeOptionIn sec o).sections.map Prod.fst).contains sec = true := by
    rw [removeOptionIn_keys]
    exact List.elem_iff.mpr (mem_keys_of_lookup cp.sections sec own hown)
  unfold ConfigParser.remove_section
  rw [if_pos hc]

/-- The dropped section is gone from the section listing. -/
theorem dropSection_not_mem (cp : ConfigParser) (sec : String) :
    sec ∉ (cp.dropSection sec).sectionNames := by
  unfold ConfigParser.dropSection ConfigParser.sectionNames
  exact not_mem_keys_filter sec cp.sections

/-- `save` when validation fails: the error, and no state change. -/
theorem save_error (st : Store) (e : InvalidConfigError)
    (h : validate_config st.config st.schema = Except.error e) :
    ValidConfig.save st = (some e, st) := by
  unfold ValidConfig.save
  rw [h]

/-- `save` when validation passes: the whole snapshot is persisted. -/
theorem save_ok (st : Store) (h : validate_config st.config st.schema = Except.ok ()) :
    ValidConfig.save st = (none, { st with persisted := some st.config }) := by
  unfold ValidConfig.save
  rw [h]

/-- C5 amended, for section names that address a stored section (not the
reserved name, and not the empty string — `remove_option`'s falsy alias for
it): unset on an existing section whose (transformed) option name is not
stored there is a no-op that never calls save; unset of the last remaining
option of a section removes the option and then the now-empty section before
save **provided the reserved `DEFAULT` section holds no options** — with
fallback options present, `self.options(section)` stays non-empty after the
removal, so the emptied section is retained (third conjunct); unset of a
section that does not exist at all fails with the no-such-section lookup
error and mutates nothing. -/
theorem C5_amended_unset : ∀ (st : Store) (sec option : String),
    (∀ own, sec ≠ "" → sec ≠ "DEFAULT" → st.config.sections.lookup sec = some own →
      (own.map Prod.fst).contains (xformName st.config.caseSensitive option) = false →
      ConfigCLI.unset_option st sec option = Except.ok st)
  ∧ (∀ own, sec ≠ "" → sec ≠ "DEFAULT" → st.config.sections.lookup sec = some own →
      (own.map Prod.fst).contains (xformName st.config.caseSensitive option) = true →
      removeKey own (xformName st.config.caseSensitive option) = [] →
      st.config.defaults = [] →
      (∃ e, ConfigCLI.unset_option st sec option = Except.error (CLIError.invalidConfig e))
      ∨ (∃ st2, ConfigCLI.unset_option st sec option = Except.ok st2 ∧
          sec ∉ st2.config.sectionNames ∧ st2.persisted = some st2.config))
  ∧ (∀ own, sec ≠ "" → sec ≠ "DEFAULT" → st.config.sections.lookup sec = some own →
      (own.map Prod.fst).contains (xformName st.config.caseSensitive option) = true →
      st.config.defaults ≠ [] →
      ∀ st2, ConfigCLI.unset_option st sec option = Except.ok st2 →
        sec ∈ st2.config.sectionNames)
  ∧ (st.config.sections.lookup sec = none → sec ≠ "" → sec ≠ "DEFAULT" →
      ConfigCLI.unset_option st sec option = Except.error (CLIError.noSection sec)) := by
  intro st sec option
  refine ⟨?_, ?_, ?_, ?_⟩
  · intro own hne hnd hown hcon
    unfold ConfigCLI.unset_option
    rw [remove_option_absent st.config sec option own hne hnd hown hcon]
  · intro own hne hnd hown hcon hrem hdef
    unfold ConfigCLI.unset_option
    rw [remove_option_present st.config sec option own hne hnd hown hcon]
    dsimp only
    rw [options_removeOptionIn st.config sec (xformName st.config.caseSensitive option) own hown,
      hrem, hdef]
    have hmk : mergeKeys [] [] = ([] : List String) := rfl
    rw [hmk]
    dsimp only
    rw [remove_section_removeOptionIn st.config sec (xformName st.config.caseSensitive option)
      own hown]
    dsimp only
    rcases hval : validate_config
        ((st.config.removeOptionIn sec (xformName st.config.caseSensitive option)).dropSection sec)
        st.schema with e | u
    · refine Or.inl ⟨e, ?_⟩
      rw [save_error { st with config := (st.config.removeOptionIn sec
        (xformName st.config.caseSensitive option)).dropSection sec } e hval]
    · cases u
      rw [save_ok { st with config := (st.config.removeOptionIn sec
        (xformName st.config.caseSensitive option)).dropSection sec } hval]
      refine Or.inr ⟨_, rfl, ?_, rfl⟩
      exact dropSection_not_mem (st.config.removeOptionIn sec
        (xformName st.config.caseSensitive option)) sec
  · intro own hne hnd hown hcon hdef st2 hst2
    unfold ConfigCLI.unset_option at hst2
    rw [remove_option_present st.config sec option own hne hnd hown hcon] at hst2
    dsimp only at hst2
    rw [options_removeOptionIn st.config sec (xformName st.config.caseSensitive option) own hown]
      at hst2
    have hkeys := removeOptionIn_keys st.config sec (xformName st.config.caseSensitive option)
    generalize hcp : st.config.removeOptionIn sec (xformName st.config.caseSensitive option) = cp2
      at hst2 hkeys
    rcases hmk : mergeKeys (removeKey own (xformName st.config.caseSensitive option))
        st.config.defaults with _ | ⟨x, xs⟩
    · have hne := mergeKeys_ne_empty_of_defaults
        (removeKey own (xformName st.config.caseSensitive option)) st.config.defaults hdef
      rw [hmk] at hne
      simp at hne
    · rw [hmk] at hst2
      dsimp only at hst2
      rcases hval : validate_config cp2 st.schema with e | u
      · rw [save_error { st with config := cp2 } e hval] at hst2
        cases hst2
      · cases u
        rw [save_ok { st with config := cp2 } hval] at hst2
        cases hst2
        dsimp only [ConfigParser.sectionNames]
        rw [hkeys]
        exact mem_keys_of_lookup st.config.sections sec own hown
  · intro hown hne hnd
    unfold ConfigCLI.unset_option
    rw [remove_option_no_section st.config sec option hne hnd hown]

/-- Lower-casing the keys first changes nothing when the keys get
`optionxform`ed anyway (lower-casing is idempotent). -/
theorem map_xform_lower (l : Entries) :
    (l.map (fun kv => (lowerString kv.1, kv.2))).map
        (fun kv => (xformName false kv.1, kv.2)) =
      l.map (fun kv => (xformName false kv.1, kv.2)) := by
  rw [List.map_map]
  exact List.map_congr_left (fun kv _ => by simp [Function.comp, xformName_false_lower])

/-- C7: with the default (case-insensitive) transform, every option-name
comparison site of the store first lower-cases the name — `get`, `set`,
`unset`'s `remove_option`, and the value access the validator performs all
behave identically on a name and its lower-cased form, and loading stores
only canonical (lower-cased) option names, so the names the validator
matches and the listing returns are canonical too; with the case-sensitive
flag, loading keeps names verbatim and lookups distinguish case (the
concrete conjuncts separate `Ab` from `ab`). -/
theorem C7_option_name_canonicalization :
    (∀ (cp : ConfigParser) (sec option value : String), cp.caseSensitive = false →
      cp.get sec option = cp.get sec (lowerString option)
      ∧ cp.set sec option value = cp.set sec (lowerString option) value
      ∧ cp.remove_option sec option = cp.remove_option sec (lowerString option)
      ∧ cp.getValue sec option = cp.getValue sec (lowerString option))
  ∧ (∀ raw : RawConfig, readConfig false raw = readConfig false raw.lowerOptionNames)
  ∧ (∀ raw : RawConfig, readConfig true raw =
      { caseSensitive := true, defaults := raw.defaults, sections := raw.sections })
  ∧ cpSensitive.get "s" "Ab" = Except.ok "1"
  ∧ cpSensitive.get "s" "ab" = Except.error (LookupError.noOption "s" "ab")
  ∧ cpSensitive.remove_option "s" "ab" = Except.ok (cpSensitive, false)
  ∧ cpInsensitive.get "s" "AB" = Except.ok "1" := by
  refine ⟨fun cp sec option value hcs => ?_, fun raw => ?_, fun raw => ?_, rfl, rfl, rfl, rfl⟩
  · have key : xformName cp.caseSensitive (lowerString option) =
        xformName cp.caseSensitive option := by
      rw [hcs]
      exact xformName_false_lower option
    refine ⟨?_, ?_, ?_, ?_⟩
    · simp only [ConfigParser.get, key]
    · simp only [ConfigParser.set, key]
    · simp only [ConfigParser.remove_option, key]
    · simp only [ConfigParser.getValue, key]
  · unfold readConfig RawConfig.lowerOptionNames
    dsimp only
    rw [map_xform_lower]
    congr 1
    rw [List.map_map]
    refine (List.map_congr_left (fun s _ => ?_)).symm
    dsimp [Function.comp]
    rw [map_xform_lower]
  · unfold readConfig
    simp [xformName]
